import Mathlib

/-!
# Verification of the RedisStream-POC event pipeline

Shallow embedding of the repository's delivery core:

* `src/utils/streamUtils.js` — thin wrappers over the log store
  (`addToStream`, `createConsumerGroup`, `readFromConsumerGroup`,
  `acknowledgeMessage`);
* `src/services/consumer.js` — `ConsumerService`, the simple (non-grouped)
  consumer with an in-memory cursor and a `processedMessages` set;
* `src/services/consumerGroup.js` — `ConsumerGroupService`, the grouped
  consumer with explicit acknowledgment;
* `src/services/producer.js` — `ProducerService`, including `batchPublish`;
* `src/routes/events.js` — the batch publish HTTP surface.

The log store itself (Redis) is an external system: its stream/consumer-group
semantics is modelled from the spec (sections 3, 4.2 and 6), with each such
definition marked `Modelled from the spec:`.  Effectful calls (database writes,
handler invocations, store acknowledgments) are embedded by passing their
outcomes in as explicit `Except` values, so control flow — what the code does
with a success or a thrown error — is translated faithfully from the source.
-/

/-- Entry identifiers.  The store assigns a composite (millisecond, sequence)
identifier, globally ordered; the development only uses this total order, so
identifiers are embedded as naturals. -/
abbrev EntryId := Nat

/-- One log entry: a store-assigned identifier plus an ordered field mapping
(spec section 3, `LogEntry`). -/
structure LogEntry where
  id : EntryId
  fields : List (String × String)
deriving DecidableEq, Repr

/-- Consumer-group state over one log (spec section 3, `ConsumerGroup`):
the group's read cursor and the pending-entries table of
(entryId, consumerName) claims. -/
structure GroupState where
  lastDeliveredId : EntryId
  pending : List (EntryId × String)
deriving DecidableEq, Repr

/-- Modelled from the spec: `claimNext(log, group, consumer, maxCount)`
(section 4.2).  Returns up to `maxCount` entries strictly after
`lastDeliveredId`, marks each as pending for `consumer`, and advances
`lastDeliveredId` past everything delivered.  The store serializes
concurrent `claimNext` calls for one group (section 5), so a pair of
concurrent calls is embedded as two calls in their serialization order.
The wrapper `readFromConsumerGroup` in `src/utils/streamUtils.js` forwards
directly to this store primitive (XREADGROUP with the `>` cursor). -/
def claimNext (log : List LogEntry) (g : GroupState) (consumer : String)
    (maxCount : Nat) : List LogEntry × GroupState :=
  let avail := (log.filter (fun e => g.lastDeliveredId < e.id)).take maxCount
  let newLast := avail.foldl (fun m e => max m e.id) g.lastDeliveredId
  (avail, ⟨newLast, g.pending ++ avail.map (fun e => (e.id, consumer))⟩)

/-- Modelled from the spec: `acknowledge(log, group, entryId)` (section 4.2,
the store's XACK).  Removes the entry from `pendingEntries` if present and
returns the number of entries removed; an unknown id removes nothing and is
not an error.  The wrapper `acknowledgeMessage` in
`src/utils/streamUtils.js` forwards directly to this store primitive. -/
def xack (g : GroupState) (entryId : EntryId) : GroupState × Nat :=
  let removed := g.pending.filter (fun p => p.1 == entryId)
  (⟨g.lastDeliveredId, g.pending.filter (fun p => p.1 != entryId)⟩, removed.length)

/-- The store's error text for creating a group that already exists
(spec section 6, `create_group → ok | already_exists`). -/
def busyGroupMsg : String := "BUSYGROUP Consumer Group name already exists"

/-- Modelled from the spec: the store's `create_group(log, group, startId)`
(section 6) over the set of group names already registered on the log:
creating an absent group succeeds, creating a present one reports
`already_exists` as a BUSYGROUP error. -/
def xgroupCreate (existing : List String) (groupName : String) :
    Except String Unit :=
  if groupName ∈ existing then Except.error busyGroupMsg else Except.ok ()

/-- Whether `pat` is a prefix of `hay` (character lists). -/
def listStartsWith : List Char → List Char → Bool
  | [], _ => true
  | _ :: _, [] => false
  | p :: ps, h :: hs => p == h && listStartsWith ps hs

/-- Whether `pat` occurs contiguously inside `hay` (character lists). -/
def listHasInfix (pat : List Char) : List Char → Bool
  | [] => listStartsWith pat []
  | h :: hs => listStartsWith pat (h :: hs) || listHasInfix pat hs

/-- `error.message.includes('BUSYGROUP')` from
`src/utils/streamUtils.js` (`createConsumerGroup`). -/
def includesBusygroup (m : String) : Bool :=
  listHasInfix "BUSYGROUP".data m.data

/-- `createConsumerGroup` from `src/utils/streamUtils.js`, parameterized by
the store call's outcome: on success return `true`; on an error whose message
contains BUSYGROUP, log and return `true`; rethrow any other error. -/
def createConsumerGroup (storeResp : Except String Unit) : Except String Bool :=
  match storeResp with
  | Except.ok _ => Except.ok true
  | Except.error m =>
      if includesBusygroup m then Except.ok true else Except.error m

/-- An event payload: a flat JSON object, embedded as an ordered
string-to-string field list.  The delivery core only ever serializes it,
deserializes it, or reads `payload.userId`. -/
abbrev Payload := List (String × String)

/-- `payload.userId || null` as in both consumers' `saveEventToDatabase`:
an absent field or a falsy (empty-string) value yields null. -/
def payloadUserId (payload : Payload) : Option String :=
  match payload.lookup "userId" with
  | some v => if v = "" then none else some v
  | none => none

/-- `JSON.stringify(payload)` in `addToStream`
(`src/utils/streamUtils.js`), abstracted to a concrete injective-on-shape
textual encoding; the development only uses that the serialized payload is a
function of the payload alone. -/
def serializePayload (payload : Payload) : String :=
  String.intercalate "," (payload.map (fun kv => kv.1 ++ ":" ++ kv.2))

/-- The field list built by `addToStream` in `src/utils/streamUtils.js`:
`XADD streamName id eventType <et> payload <json> timestamp <now> id <uuid>`.
`timestamp` (Date.now()) and `uuid` (uuidv4()) are environment inputs. -/
def addToStreamFields (eventType : String) (payload : Payload)
    (timestamp : String) (uuid : String) : List (String × String) :=
  [("eventType", eventType), ("payload", serializePayload payload),
   ("timestamp", timestamp), ("id", uuid)]

/-- One event given to `ProducerService.batchPublish`
(`src/services/producer.js`): `{streamName, eventType, payload}`. -/
structure PubEvent where
  streamName : String
  eventType : String
  payload : Payload
deriving DecidableEq, Repr

/-- `Promise.all` over a list of already-settled append outcomes: if every
promise fulfilled, fulfil with the list of values in order; otherwise reject
with the first rejection. -/
def promiseAll {α : Type} : List (Except String α) → Except String (List α)
  | [] => Except.ok []
  | Except.error e :: _ => Except.error e
  | Except.ok a :: rest =>
      match promiseAll rest with
      | Except.ok as => Except.ok (a :: as)
      | Except.error e => Except.error e

/-- `ProducerService.batchPublish` from `src/services/producer.js`:
`Promise.all(events.map(event => addToStream(...)))`, with each
`addToStream` call's outcome supplied by the store oracle `append`. -/
def ProducerService.batchPublish (events : List PubEvent)
    (append : PubEvent → Except String EntryId) : Except String (List EntryId) :=
  promiseAll (events.map append)

/-- The first rejection among a list of settled outcomes, if any
(used to state which error `Promise.all` rejects with). -/
def firstErr {α : Type} : List (Except String α) → Option String
  | [] => none
  | Except.error e :: _ => some e
  | Except.ok _ :: rest => firstErr rest

/-- The audit row created by the consumers' `saveEventToDatabase`
(Event.create in `src/services/consumer.js` / `src/services/consumerGroup.js`). -/
structure EventRow where
  streamId : EntryId
  eventType : String
  payload : Payload
  processed : Bool
  consumerId : String
  userId : Option String
deriving DecidableEq, Repr

/-- `ConsumerGroupService.saveEventToDatabase` from
`src/services/consumerGroup.js`: builds the audit row, extracting
`payload.userId` into its own column and tagging the consumer as
`groupName:consumerName`. -/
def ConsumerGroupService.saveEventToDatabase (groupName consumerName : String)
    (messageId : EntryId) (eventType : String) (payload : Payload) : EventRow :=
  { streamId := messageId, eventType := eventType, payload := payload,
    processed := false, consumerId := groupName ++ ":" ++ consumerName,
    userId := payloadUserId payload }

/-- `ConsumerService.saveEventToDatabase` from `src/services/consumer.js`:
same row, tagged with the plain consumerId. -/
def ConsumerService.saveEventToDatabase (consumerId : String)
    (messageId : EntryId) (eventType : String) (payload : Payload) : EventRow :=
  { streamId := messageId, eventType := eventType, payload := payload,
    processed := false, consumerId := consumerId,
    userId := payloadUserId payload }

/-- The dispatch table's event types (`EVENT_TYPES` in
`src/utils/streamUtils.js`); the consumers' `handleEvent` switch has exactly
these cases. -/
def EVENT_TYPES : List String :=
  ["user.created", "user.updated", "user.deleted", "message.sent",
   "task.created", "task.completed", "system.error", "system.info"]

/-- One message as seen by a consumer, with the outcome of each effectful
step supplied as an oracle: `saveR` is the database insert's outcome,
`handlerR` the outcome of the matched per-type handler (an awaited async
call that may throw). -/
structure GroupMsg where
  msgId : EntryId
  eventType : String
  saveR : Except String Unit
  handlerR : Except String Unit
  ackR : Except String Unit
deriving Repr

/-- `ConsumerGroupService.handleEvent` from `src/services/consumerGroup.js`:
a switch on `eventType` over the cases of `EVENT_TYPES`, awaiting the matched
handler; the default case only logs the unknown type and returns normally. -/
def ConsumerGroupService.handleEvent (eventType : String)
    (handlerR : Except String Unit) : Except String Unit :=
  if eventType ∈ EVENT_TYPES then handlerR else Except.ok ()

/-- What one `ConsumerGroupService.processMessage` call did:
whether `acknowledgeMessage` was invoked and succeeded, whether
`markEventAsProcessed` ran, whether the catch block
(`handleProcessingError`) ran, and whether an exception escaped the call. -/
structure ProcessOutcome where
  ackCalled : Bool
  ackOk : Bool
  markCalled : Bool
  errorRecorded : Bool
  threw : Bool
deriving DecidableEq, Repr

/-- `ConsumerGroupService.processMessage` from `src/services/consumerGroup.js`:
save to the database, dispatch via `handleEvent`, acknowledge, mark processed;
any error thrown by those awaited steps lands in the catch block, which
records the error (`handleProcessingError`) and deliberately does not
acknowledge, and the function returns normally. -/
def ConsumerGroupService.processMessage (m : GroupMsg) : ProcessOutcome :=
  match m.saveR with
  | Except.error _ =>
      { ackCalled := false, ackOk := false, markCalled := false,
        errorRecorded := true, threw := false }
  | Except.ok _ =>
      match ConsumerGroupService.handleEvent m.eventType m.handlerR with
      | Except.error _ =>
          { ackCalled := false, ackOk := false, markCalled := false,
            errorRecorded := true, threw := false }
      | Except.ok _ =>
          match m.ackR with
          | Except.error _ =>
              { ackCalled := true, ackOk := false, markCalled := false,
                errorRecorded := true, threw := false }
          | Except.ok _ =>
              { ackCalled := true, ackOk := true, markCalled := true,
                errorRecorded := false, threw := false }

/-- The grouped loop body's inner `for` over one read batch
(`src/services/consumerGroup.js`, `startConsuming`): every message of the
batch is passed to `processMessage` in order. -/
def ConsumerGroupService.processBatch (msgs : List GroupMsg) :
    List ProcessOutcome :=
  msgs.map ConsumerGroupService.processMessage

/-- One message as read by the simple consumer, with effect oracles
(the simple consumer issues no acknowledgments). -/
structure SimpleMsg where
  msgId : EntryId
  eventType : String
  saveR : Except String Unit
  handlerR : Except String Unit
deriving Repr

/-- What one `ConsumerService.processMessage` call did. -/
structure SimpleOutcome where
  handledOk : Bool
  markCalled : Bool
  errorRecorded : Bool
  threw : Bool
deriving DecidableEq, Repr

/-- `ConsumerService.handleEvent` from `src/services/consumer.js`: the same
switch over `EVENT_TYPES`, default case logs only; then (on normal return)
`markEventAsProcessed` runs, itself swallowing any database error. -/
def ConsumerService.handleEvent (eventType : String)
    (handlerR : Except String Unit) : Except String Unit :=
  if eventType ∈ EVENT_TYPES then handlerR else Except.ok ()

/-- `ConsumerService.processMessage` from `src/services/consumer.js`:
parse, save to the database, dispatch via `handleEvent`; every error thrown
by those awaited steps is caught in the function's own catch block
(`handleProcessingError`), so the call always returns normally. -/
def ConsumerService.processMessage (m : SimpleMsg) : SimpleOutcome :=
  match m.saveR with
  | Except.error _ =>
      { handledOk := false, markCalled := false,
        errorRecorded := true, threw := false }
  | Except.ok _ =>
      match ConsumerService.handleEvent m.eventType m.handlerR with
      | Except.error _ =>
          { handledOk := false, markCalled := false,
            errorRecorded := true, threw := false }
      | Except.ok _ =>
          { handledOk := true, markCalled := true,
            errorRecorded := false, threw := false }

/-- The simple consumer's in-memory state (`src/services/consumer.js`):
the `processedMessages` set (a JS Set, embedded as its insertion-ordered,
duplicate-free element list) and the loop-local `startId` cursor. -/
structure SimpleState where
  processedMessages : List EntryId
  startId : EntryId
deriving DecidableEq, Repr

/-- One message step of the simple loop body
(`src/services/consumer.js`, `startConsuming`): skip the message when its id
is already in `processedMessages`; otherwise call `processMessage`, add the
id to the set, and advance `startId` to it.  Because `processMessage`
catches internally, the add and the cursor advance run whether or not the
handler succeeded. -/
def ConsumerService.stepMsg (s : SimpleState) (m : SimpleMsg) :
    SimpleState × Option SimpleOutcome :=
  if m.msgId ∈ s.processedMessages then (s, none)
  else
    (⟨s.processedMessages ++ [m.msgId], m.msgId⟩,
     some (ConsumerService.processMessage m))

/-- The simple loop body's inner `for` over one read batch, returning the
new state and the dispatch log: the ids passed to `processMessage`, in
order. -/
def ConsumerService.processBatch (s : SimpleState) :
    List SimpleMsg → SimpleState × List EntryId
  | [] => (s, [])
  | m :: rest =>
      match ConsumerService.stepMsg s m with
      | (s1, none) => ConsumerService.processBatch s1 rest
      | (s1, some _) =>
          let r := ConsumerService.processBatch s1 rest
          (r.1, m.msgId :: r.2)

/-- What one iteration of a polling loop encounters: either the store read
throws, or it returns a (possibly empty) batch. -/
inductive GIter where
  | readErr (msg : String)
  | batch (msgs : List GroupMsg)

/-- A trace of a bounded run of the grouped polling loop.
`stoppedBySignal = true` means the `while (this.isRunning)` condition was
found false (someone called `stop()`); `false` means the fuel bound of this
shallow embedding ran out with the loop still going. -/
structure GroupRun where
  stoppedBySignal : Bool
  iterations : Nat
  outcomes : List ProcessOutcome
  caughtErrors : List String
deriving Repr

/-- `ConsumerGroupService.startConsuming` from `src/services/consumerGroup.js`,
fuel-bounded.  `stopSig i` tells whether `stop()` has set `isRunning = false`
before iteration `i`'s while-check; `sched i` is iteration `i`'s store-read
result.  A read error is caught, logged, followed by the fixed
`sleep(1000)` backoff, and the loop retries; a batch is processed message by
message (each with its own internal catch), then the loop continues. -/
def ConsumerGroupService.runLoop :
    Nat → Nat → (Nat → Bool) → (Nat → GIter) → GroupRun
  | 0, i, _, _ =>
      { stoppedBySignal := false, iterations := i, outcomes := [],
        caughtErrors := [] }
  | fuel + 1, i, stopSig, sched =>
      if stopSig i then
        { stoppedBySignal := true, iterations := i, outcomes := [],
          caughtErrors := [] }
      else
        match sched i with
        | GIter.readErr m =>
            let r := ConsumerGroupService.runLoop fuel (i + 1) stopSig sched
            { r with caughtErrors := m :: r.caughtErrors }
        | GIter.batch msgs =>
            let os := ConsumerGroupService.processBatch msgs
            let r := ConsumerGroupService.runLoop fuel (i + 1) stopSig sched
            { r with outcomes := os ++ r.outcomes }

/-- What one iteration of the simple polling loop encounters. -/
inductive SIter where
  | readErr (msg : String)
  | batch (msgs : List SimpleMsg)

/-- A trace of a bounded run of the simple polling loop. -/
structure SimpleRun where
  stoppedBySignal : Bool
  iterations : Nat
  finalState : SimpleState
  dispatched : List EntryId
  caughtErrors : List String
deriving Repr

/-- `ConsumerService.startConsuming` from `src/services/consumer.js`,
fuel-bounded, threading the `processedMessages` set and the `startId`
cursor.  A read error is caught, logged, followed by the
`sleep(pollInterval)` backoff, and the loop retries; an empty batch
sleeps and retries; a non-empty batch runs the inner `for` with the
membership check, the set insert and the cursor advance. -/
def ConsumerService.runLoop :
    Nat → Nat → (Nat → Bool) → (Nat → SIter) → SimpleState → SimpleRun
  | 0, i, _, _, s =>
      { stoppedBySignal := false, iterations := i, finalState := s,
        dispatched := [], caughtErrors := [] }
  | fuel + 1, i, stopSig, sched, s =>
      if stopSig i then
        { stoppedBySignal := true, iterations := i, finalState := s,
          dispatched := [], caughtErrors := [] }
      else
        match sched i with
        | SIter.readErr m =>
            let r := ConsumerService.runLoop fuel (i + 1) stopSig sched s
            { r with caughtErrors := m :: r.caughtErrors }
        | SIter.batch msgs =>
            let p := ConsumerService.processBatch s msgs
            let r := ConsumerService.runLoop fuel (i + 1) stopSig sched p.1
            { r with dispatched := p.2 ++ r.dispatched }

lemma foldl_max_init_le (l : List LogEntry) (init : EntryId) :
    init ≤ l.foldl (fun m e => max m e.id) init := by
  induction l generalizing init with
  | nil => exact Nat.le_refl _
  | cons h t ih =>
      exact Nat.le_trans (Nat.le_max_left init h.id) (ih (max init h.id))

lemma mem_foldl_max_le (l : List LogEntry) (init : EntryId) (e : LogEntry)
    (he : e ∈ l) : e.id ≤ l.foldl (fun m x => max m x.id) init := by
  induction l generalizing init with
  | nil => cases he
  | cons h t ih =>
      rcases List.mem_cons.mp he with rfl | hm
      · exact Nat.le_trans (Nat.le_max_right init e.id)
          (foldl_max_init_le t (max init e.id))
      · exact ih _ hm

/-- C1: for one consumer group, any pair of `claimNext`
(`readFromConsumerGroup`) calls in their store serialization order — the
embedding of two concurrent calls, the store serializing claims per group —
returns disjoint entry sets, whatever the stream contents, the prior group
state, the two consumer names and the two batch sizes: no entry id appears
in both results. -/
theorem claimNext_concurrent_calls_disjoint (log : List LogEntry)
    (g : GroupState) (c1 c2 : String) (n1 n2 : Nat) (e1 e2 : LogEntry)
    (h1 : e1 ∈ (claimNext log g c1 n1).1)
    (h2 : e2 ∈ (claimNext log (claimNext log g c1 n1).2 c2 n2).1) :
    e1.id ≠ e2.id := by
  simp only [claimNext] at h1 h2
  have hle : e1.id ≤
      ((log.filter (fun e => g.lastDeliveredId < e.id)).take n1).foldl
        (fun m x => max m x.id) g.lastDeliveredId :=
    mem_foldl_max_le _ _ _ h1
  have hgt := List.of_mem_filter (List.mem_of_mem_take h2)
  have hlt : ((log.filter (fun e => g.lastDeliveredId < e.id)).take n1).foldl
      (fun m x => max m x.id) g.lastDeliveredId < e2.id := by
    exact of_decide_eq_true hgt
  exact Nat.ne_of_lt (Nat.lt_of_le_of_lt hle hlt)

/-- Closed instance of `claimNext_concurrent_calls_disjoint`: with a
two-entry log and two successive single-entry claims, the first call
returns the entry with id 1, the second the entry with id 2, and their ids
differ. -/
theorem claimNext_concurrent_calls_disjoint_witness :
    (⟨1, []⟩ : LogEntry).id ≠ (⟨2, []⟩ : LogEntry).id :=
  claimNext_concurrent_calls_disjoint [⟨1, []⟩, ⟨2, []⟩] ⟨0, []⟩ "c1" "c2"
    1 1 ⟨1, []⟩ ⟨2, []⟩ (by decide) (by decide)

lemma filter_bne_idem (l : List (EntryId × String)) (e : EntryId) :
    (l.filter (fun p => p.1 != e)).filter (fun p => p.1 != e) =
      l.filter (fun p => p.1 != e) := by
  induction l with
  | nil => rfl
  | cons h t ih =>
      by_cases hh : h.1 = e
      · have hb : (h.1 != e) = false := by simp [bne, hh]
        simp [List.filter_cons, hb, ih]
      · have hb : (h.1 != e) = true := by simp [bne, hh]
        simp [List.filter_cons, hb, ih]

lemma filter_bne_of_not_mem (l : List (EntryId × String)) (e : EntryId)
    (h : e ∉ l.map Prod.fst) : l.filter (fun p => p.1 != e) = l := by
  induction l with
  | nil => rfl
  | cons hd t ih =>
      simp only [List.map_cons, List.mem_cons, not_or] at h
      have hne : hd.1 ≠ e := fun hh => h.1 hh.symm
      have hb : (hd.1 != e) = true := by simp [bne, hne]
      simp [List.filter_cons, hb, ih h.2]

lemma filter_beq_nil_of_not_mem (l : List (EntryId × String)) (e : EntryId)
    (h : e ∉ l.map Prod.fst) : l.filter (fun p => p.1 == e) = [] := by
  induction l with
  | nil => rfl
  | cons hd t ih =>
      simp only [List.map_cons, List.mem_cons, not_or] at h
      have hne : hd.1 ≠ e := fun hh => h.1 hh.symm
      have hb : (hd.1 == e) = false := by simp [hne]
      simp [List.filter_cons, hb, ih h.2]

/-- C9: acknowledgment is idempotent: for every group state and every entry
id — pending or not — acknowledging the same id twice leaves exactly the
group state (pending set and cursor) of acknowledging it once, the first
ack having already removed the id; and acknowledging an id that is not
pending is a no-op — the state is unchanged, no entries are reported
removed, and no error arises (`xack` is total). -/
theorem xack_idempotent (g : GroupState) (e : EntryId) :
    (xack (xack g e).1 e).1 = (xack g e).1 ∧
      (e ∉ g.pending.map Prod.fst →
        (xack g e).1 = g ∧ (xack g e).2 = 0) := by
  constructor
  · simp only [xack]
    exact congrArg (GroupState.mk g.lastDeliveredId)
      (filter_bne_idem g.pending e)
  · intro hnp
    constructor
    · cases g with
      | mk last pend =>
          simp only [xack]
          exact congrArg (GroupState.mk last)
            (filter_bne_of_not_mem pend e hnp)
    · simp only [xack, filter_beq_nil_of_not_mem g.pending e hnp,
        List.length_nil]

/-- Closed instance of `xack_idempotent`: in a group whose pending set holds
ids 5 and 3, re-acknowledging id 5 — which the first ack removed — changes
nothing further, and acknowledging the never-pending id 9 is a no-op with
zero entries removed. -/
theorem xack_idempotent_witness :
    (xack (xack ⟨7, [(5, "c1"), (3, "c2")]⟩ 5).1 5).1 =
        (xack ⟨7, [(5, "c1"), (3, "c2")]⟩ 5).1 ∧
      (xack ⟨7, [(5, "c1"), (3, "c2")]⟩ 9).1 = ⟨7, [(5, "c1"), (3, "c2")]⟩ ∧
      (xack ⟨7, [(5, "c1"), (3, "c2")]⟩ 9).2 = 0 :=
  ⟨(xack_idempotent ⟨7, [(5, "c1"), (3, "c2")]⟩ 5).1,
    (xack_idempotent ⟨7, [(5, "c1"), (3, "c2")]⟩ 9).2 (by decide)⟩

/-- C4: `createConsumerGroup` is idempotent: whatever groups already exist
on the stream, the call succeeds with `true` — the store creates the group
when absent, and the BUSYGROUP error reported when it is present is caught
and turned into success — while any store error whose message does not
contain BUSYGROUP is propagated as a failure. -/
theorem createConsumerGroup_idempotent (existing : List String)
    (groupName : String) (m : String)
    (hm : includesBusygroup m = false) :
    createConsumerGroup (xgroupCreate existing groupName) = Except.ok true ∧
      createConsumerGroup (Except.error m) = Except.error m := by
  constructor
  · by_cases hg : groupName ∈ existing
    · have hb : includesBusygroup busyGroupMsg = true := by decide
      simp [xgroupCreate, createConsumerGroup, hg, hb]
    · simp [xgroupCreate, createConsumerGroup, hg]
  · simp [createConsumerGroup, hm]

/-- Closed instance of `createConsumerGroup_idempotent`: creating a group on
a stream that already has it succeeds, and a WRONGTYPE store error is
propagated. -/
theorem createConsumerGroup_idempotent_witness :
    createConsumerGroup (xgroupCreate ["grp"] "grp") = Except.ok true ∧
      createConsumerGroup (Except.error "WRONGTYPE key") =
        Except.error "WRONGTYPE key" :=
  createConsumerGroup_idempotent ["grp"] "grp" "WRONGTYPE key" (by decide)

/-- C2: in the grouped consumer, when handling a message throws — the
database save succeeded but the dispatched handler raised — the exception is
caught inside `processMessage` (nothing escapes to the polling loop:
`threw = false`), `acknowledgeMessage` is not called, and the failure is
recorded, leaving the entry pending for redelivery; moreover the loop body
passes every message of a batch to `processMessage`, so the loop continues
with the next message. -/
theorem grouped_handler_failure_caught_not_acked (m : GroupMsg) (e : String)
    (hsave : m.saveR = Except.ok ())
    (hh : ConsumerGroupService.handleEvent m.eventType m.handlerR =
      Except.error e) :
    ((ConsumerGroupService.processMessage m).threw = false ∧
        (ConsumerGroupService.processMessage m).ackCalled = false ∧
        (ConsumerGroupService.processMessage m).errorRecorded = true) ∧
      ∀ msgs : List GroupMsg,
        (ConsumerGroupService.processBatch msgs).length = msgs.length := by
  constructor
  · simp [ConsumerGroupService.processMessage, hsave, hh]
  · intro msgs
    simp [ConsumerGroupService.processBatch]

/-- Closed instance of `grouped_handler_failure_caught_not_acked`: a
`user.created` message whose handler throws is caught and left
unacknowledged. -/
theorem grouped_handler_failure_caught_not_acked_witness :
    (ConsumerGroupService.processMessage
        ⟨1, "user.created", Except.ok (), Except.error "boom",
          Except.ok ()⟩).threw = false ∧
      (ConsumerGroupService.processMessage
        ⟨1, "user.created", Except.ok (), Except.error "boom",
          Except.ok ()⟩).ackCalled = false ∧
      (ConsumerGroupService.processMessage
        ⟨1, "user.created", Except.ok (), Except.error "boom",
          Except.ok ()⟩).errorRecorded = true :=
  (grouped_handler_failure_caught_not_acked
    ⟨1, "user.created", Except.ok (), Except.error "boom", Except.ok ()⟩
    "boom" rfl rfl).1

/-- C5: a message whose `eventType` matches no case of the dispatch table
falls into the grouped consumer's default branch, which only logs; with the
database save and the store acknowledgment succeeding, the message is
acknowledged and marked processed, with no processing failure recorded and
no exception raised — it is treated as successfully ignored, whatever the
(never-invoked) handler oracle would have done. -/
theorem grouped_unknown_type_acknowledged (m : GroupMsg)
    (hunk : m.eventType ∉ EVENT_TYPES)
    (hsave : m.saveR = Except.ok ()) (hack : m.ackR = Except.ok ()) :
    (ConsumerGroupService.processMessage m).ackCalled = true ∧
      (ConsumerGroupService.processMessage m).markCalled = true ∧
      (ConsumerGroupService.processMessage m).errorRecorded = false ∧
      (ConsumerGroupService.processMessage m).threw = false := by
  have hh : ConsumerGroupService.handleEvent m.eventType m.handlerR =
      Except.ok () := by
    simp [ConsumerGroupService.handleEvent, hunk]
  simp [ConsumerGroupService.processMessage, hsave, hh, hack]

/-- Closed instance of `grouped_unknown_type_acknowledged`: a
`payment.created` message — a type with no dispatch case — is acknowledged
and marked processed even though its handler oracle would have thrown. -/
theorem grouped_unknown_type_acknowledged_witness :
    (ConsumerGroupService.processMessage
        ⟨2, "payment.created", Except.ok (), Except.error "never runs",
          Except.ok ()⟩).ackCalled = true ∧
      (ConsumerGroupService.processMessage
        ⟨2, "payment.created", Except.ok (), Except.error "never runs",
          Except.ok ()⟩).markCalled = true ∧
      (ConsumerGroupService.processMessage
        ⟨2, "payment.created", Except.ok (), Except.error "never runs",
          Except.ok ()⟩).errorRecorded = false ∧
      (ConsumerGroupService.processMessage
        ⟨2, "payment.created", Except.ok (), Except.error "never runs",
          Except.ok ()⟩).threw = false :=
  grouped_unknown_type_acknowledged
    ⟨2, "payment.created", Except.ok (), Except.error "never runs",
      Except.ok ()⟩ (by decide) rfl rfl

lemma promiseAll_eq_ok {α : Type} (rs : List (Except String α)) (as : List α)
    (h : promiseAll rs = Except.ok as) : rs = as.map Except.ok := by
  induction rs generalizing as with
  | nil =>
      simp only [promiseAll, Except.ok.injEq] at h
      subst h
      rfl
  | cons r rest ih =>
      cases r with
      | error e => simp [promiseAll] at h
      | ok a =>
          cases hr : promiseAll rest with
          | error e => simp [promiseAll, hr] at h
          | ok as2 =>
              simp only [promiseAll, hr, Except.ok.injEq] at h
              subst h
              simp [ih as2 hr]

lemma promiseAll_firstErr {α : Type} (rs : List (Except String α)) (m : String)
    (h : firstErr rs = some m) : promiseAll rs = Except.error m := by
  induction rs with
  | nil => simp [firstErr] at h
  | cons r rest ih =>
      cases r with
      | error e =>
          simp only [firstErr, Option.some.injEq] at h
          subst h
          rfl
      | ok a =>
          simp only [firstErr] at h
          simp [promiseAll, ih h]

/-- An append oracle where the first event's append rejects and every other
append fulfils with entry id 5. -/
def cexAppendA : PubEvent → Except String EntryId := fun ev =>
  if ev.eventType = "t1" then Except.error "ERR stream full" else Except.ok 5

/-- Same oracle except the surviving append fulfils with entry id 99. -/
def cexAppendB : PubEvent → Except String EntryId := fun ev =>
  if ev.eventType = "t1" then Except.error "ERR stream full" else Except.ok 99

/-- C3 counterexample: `batchPublish` does not return a per-event result.
With two events where the first append rejects and the second fulfils, the
call returns the single rejection only — and returns the very same value
whether the second append produced id 5 or id 99, so the successful event's
outcome is suppressed, not inspectable by the caller. -/
theorem batchPublish_not_per_event_counterexample :
    ProducerService.batchPublish [⟨"s", "t1", []⟩, ⟨"s", "t2", []⟩]
        cexAppendA = Except.error "ERR stream full" ∧
      ProducerService.batchPublish [⟨"s", "t1", []⟩, ⟨"s", "t2", []⟩]
          cexAppendA =
        ProducerService.batchPublish [⟨"s", "t1", []⟩, ⟨"s", "t2", []⟩]
          cexAppendB :=
  ⟨rfl, rfl⟩

/-- C3 amended: `batchPublish` is all-or-nothing from the caller's view:
it returns a list of entry ids exactly when every append succeeded — one id
per event, in order — and as soon as any append rejects it returns the
first rejection alone, with the results of the other, independent appends
suppressed (the successful appends still happened in the store, but the
caller cannot see their ids). -/
theorem batchPublish_all_or_nothing (events : List PubEvent)
    (append : PubEvent → Except String EntryId) :
    (∀ ids, ProducerService.batchPublish events append = Except.ok ids →
        events.map append = ids.map Except.ok) ∧
      (∀ m, firstErr (events.map append) = some m →
        ProducerService.batchPublish events append = Except.error m) := by
  constructor
  · intro ids h
    exact promiseAll_eq_ok _ _ h
  · intro m h
    exact promiseAll_firstErr _ _ h

/-- Closed instance of `batchPublish_all_or_nothing`: a batch whose single
append fulfils with id 5 returns exactly that id. -/
theorem batchPublish_all_or_nothing_witness :
    List.map cexAppendA [(⟨"s", "t2", []⟩ : PubEvent)] =
      List.map Except.ok [5] :=
  (batchPublish_all_or_nothing [⟨"s", "t2", []⟩] cexAppendA).1 [5] rfl

lemma simple_processMessage_never_throws (m : SimpleMsg) :
    (ConsumerService.processMessage m).threw = false := by
  unfold ConsumerService.processMessage
  cases m.saveR with
  | error e => rfl
  | ok u =>
      cases h : ConsumerService.handleEvent m.eventType m.handlerR with
      | error e => simp [h]
      | ok u2 => simp [h]

/-- A message whose database save succeeds but whose handler throws. -/
def failingMsg : SimpleMsg :=
  ⟨7, "user.created", Except.ok (), Except.error "boom"⟩

/-- C6 counterexample: in the simple consumer, the in-memory cursor is
advanced past a message even when its handler fails.  For a fresh state and
a message with id 7 whose handler throws, `processMessage` records the
failure (`handledOk = false`), yet the loop step still moves `startId` to 7
and marks the id as seen — the claim that the cursor advances only on
handler success is false on this input. -/
theorem simple_cursor_advance_counterexample :
    (ConsumerService.processMessage failingMsg).handledOk = false ∧
      (ConsumerService.processMessage failingMsg).errorRecorded = true ∧
      (ConsumerService.stepMsg ⟨[], 0⟩ failingMsg).1.startId = 7 ∧
      (ConsumerService.stepMsg ⟨[], 0⟩ failingMsg).1.processedMessages =
        [7] := by
  decide

/-- C6 amended: the simple consumer's loop advances the cursor past every
message it dispatches, whether the handler succeeded or failed:
`processMessage` catches every per-message error internally and never
throws, so the lines that add the id to `processedMessages` and set
`startId` always run; a failed message is not revisited (it is skipped by
the membership check if re-read). -/
theorem simple_cursor_advances_regardless (s : SimpleState) (m : SimpleMsg)
    (hnew : m.msgId ∉ s.processedMessages) :
    (ConsumerService.stepMsg s m).1.startId = m.msgId ∧
      (ConsumerService.stepMsg s m).1.processedMessages =
        s.processedMessages ++ [m.msgId] ∧
      (ConsumerService.stepMsg s m).2 =
        some (ConsumerService.processMessage m) ∧
      (ConsumerService.processMessage m).threw = false := by
  refine ⟨?_, ?_, ?_, simple_processMessage_never_throws m⟩ <;>
    simp [ConsumerService.stepMsg, hnew]

/-- Closed instance of `simple_cursor_advances_regardless` at the failing
message of the counterexample. -/
theorem simple_cursor_advances_regardless_witness :
    (ConsumerService.stepMsg ⟨[], 0⟩ failingMsg).1.startId =
        failingMsg.msgId ∧
      (ConsumerService.stepMsg ⟨[], 0⟩ failingMsg).1.processedMessages =
        [] ++ [failingMsg.msgId] ∧
      (ConsumerService.stepMsg ⟨[], 0⟩ failingMsg).2 =
        some (ConsumerService.processMessage failingMsg) ∧
      (ConsumerService.processMessage failingMsg).threw = false :=
  simple_cursor_advances_regardless ⟨[], 0⟩ failingMsg (by decide)

/-- C8 counterexample: the stored audit state depends on the payload's
contents beyond the payload column itself.  Two messages identical except
for the `userId` field inside the payload produce audit rows whose separate
`userId` column differs, because `saveEventToDatabase` inspects
`payload.userId`. -/
theorem payload_not_opaque_counterexample :
    (ConsumerGroupService.saveEventToDatabase "g" "c" 1 "user.created"
        [("userId", "u1")]).userId ≠
      (ConsumerGroupService.saveEventToDatabase "g" "c" 1 "user.created"
        [("userId", "u2")]).userId := by
  decide

/-- C8 amended: the delivery core passes the payload through except for one
inspection: the producer append path serializes the payload into the
`payload` field and builds every other field independently of it, and the
consumers' audit rows copy the payload through — but both consumers extract
`payload.userId` into the audit row's own `userId` column, so that one
column of stored state is a function of the payload's contents. -/
theorem payload_passthrough_except_userid (eventType timestamp uuid g c
    cid : String) (mid : EntryId) (p1 p2 : Payload) :
    ((addToStreamFields eventType p1 timestamp uuid).filter
        (fun kv => kv.1 != "payload") =
      (addToStreamFields eventType p2 timestamp uuid).filter
        (fun kv => kv.1 != "payload")) ∧
      (addToStreamFields eventType p1 timestamp uuid).lookup "payload" =
        some (serializePayload p1) ∧
      (ConsumerGroupService.saveEventToDatabase g c mid eventType p1).userId =
        payloadUserId p1 ∧
      (ConsumerGroupService.saveEventToDatabase g c mid eventType
          p1).consumerId =
        (ConsumerGroupService.saveEventToDatabase g c mid eventType
          p2).consumerId ∧
      (ConsumerService.saveEventToDatabase cid mid eventType p1).userId =
        payloadUserId p1 := by
  refine ⟨?_, ?_, rfl, rfl, rfl⟩
  · simp [addToStreamFields]
  · simp [addToStreamFields, List.lookup]

lemma grouped_runLoop_stopped (fuel : Nat) (stopSig : Nat → Bool)
    (sched : Nat → GIter) (i : Nat)
    (h : (ConsumerGroupService.runLoop fuel i stopSig sched).stoppedBySignal =
      true) :
    stopSig (ConsumerGroupService.runLoop fuel i stopSig sched).iterations =
      true := by
  induction fuel generalizing i with
  | zero => simp [ConsumerGroupService.runLoop] at h
  | succ f ih =>
      by_cases hs : stopSig i = true
      · simp [ConsumerGroupService.runLoop, hs]
      · cases hg : sched i with
        | readErr m =>
            simp only [ConsumerGroupService.runLoop, hs, if_false, hg] at h ⊢
            exact ih (i + 1) h
        | batch msgs =>
            simp only [ConsumerGroupService.runLoop, hs, if_false, hg] at h ⊢
            exact ih (i + 1) h

lemma grouped_runLoop_no_stop (fuel : Nat) (stopSig : Nat → Bool)
    (sched : Nat → GIter) (hns : ∀ j, stopSig j = false) (i : Nat) :
    (ConsumerGroupService.runLoop fuel i stopSig sched).stoppedBySignal =
        false ∧
      (ConsumerGroupService.runLoop fuel i stopSig sched).iterations =
        i + fuel ∧
      ∀ j m, j < i + fuel → i ≤ j → sched j = GIter.readErr m →
        m ∈ (ConsumerGroupService.runLoop fuel i stopSig sched).caughtErrors := by
  induction fuel generalizing i with
  | zero =>
      refine ⟨rfl, rfl, ?_⟩
      intro j m h1 h2
      omega
  | succ f ih =>
      have hs : stopSig i = false := hns i
      obtain ⟨ih1, ih2, ih3⟩ := ih (i + 1)
      cases hg : sched i with
      | readErr m0 =>
          have hrl : ConsumerGroupService.runLoop (f + 1) i stopSig sched =
              { ConsumerGroupService.runLoop f (i + 1) stopSig sched with
                caughtErrors := m0 :: (ConsumerGroupService.runLoop f (i + 1)
                  stopSig sched).caughtErrors } := by
            simp [ConsumerGroupService.runLoop, hs, hg]
          rw [hrl]
          refine ⟨ih1, ?_, ?_⟩
          · show (ConsumerGroupService.runLoop f (i + 1)
              stopSig sched).iterations = i + (f + 1)
            omega
          intro j m h1 h2 h3
          rcases Nat.eq_or_lt_of_le h2 with rfl | hlt
          · rw [hg] at h3
            cases h3
            exact List.mem_cons_self _ _
          · exact List.mem_cons_of_mem _ (ih3 j m (by omega) hlt h3)
      | batch msgs =>
          have hrl : ConsumerGroupService.runLoop (f + 1) i stopSig sched =
              { ConsumerGroupService.runLoop f (i + 1) stopSig sched with
                outcomes := ConsumerGroupService.processBatch msgs ++
                  (ConsumerGroupService.runLoop f (i + 1)
                    stopSig sched).outcomes } := by
            simp [ConsumerGroupService.runLoop, hs, hg]
          rw [hrl]
          refine ⟨ih1, ?_, ?_⟩
          · show (ConsumerGroupService.runLoop f (i + 1)
              stopSig sched).iterations = i + (f + 1)
            omega
          intro j m h1 h2 h3
          rcases Nat.eq_or_lt_of_le h2 with rfl | hlt
          · rw [hg] at h3
            cases h3
          · exact ih3 j m (by omega) hlt h3

lemma simple_runLoop_stopped (fuel : Nat) (stopSig : Nat → Bool)
    (sched : Nat → SIter) (i : Nat) (s : SimpleState)
    (h : (ConsumerService.runLoop fuel i stopSig sched s).stoppedBySignal =
      true) :
    stopSig (ConsumerService.runLoop fuel i stopSig sched s).iterations =
      true := by
  induction fuel generalizing i s with
  | zero => simp [ConsumerService.runLoop] at h
  | succ f ih =>
      by_cases hs : stopSig i = true
      · simp [ConsumerService.runLoop, hs]
      · cases hg : sched i with
        | readErr m =>
            simp only [ConsumerService.runLoop, hs, if_false, hg] at h ⊢
            exact ih (i + 1) s h
        | batch msgs =>
            simp only [ConsumerService.runLoop, hs, if_false, hg] at h ⊢
            exact ih (i + 1) _ h

lemma simple_runLoop_no_stop (fuel : Nat) (stopSig : Nat → Bool)
    (sched : Nat → SIter) (hns : ∀ j, stopSig j = false) (i : Nat)
    (s : SimpleState) :
    (ConsumerService.runLoop fuel i stopSig sched s).stoppedBySignal =
        false ∧
      (ConsumerService.runLoop fuel i stopSig sched s).iterations =
        i + fuel ∧
      ∀ j m, j < i + fuel → i ≤ j → sched j = SIter.readErr m →
        m ∈ (ConsumerService.runLoop fuel i stopSig sched s).caughtErrors := by
  induction fuel generalizing i s with
  | zero =>
      refine ⟨rfl, rfl, ?_⟩
      intro j m h1 h2
      omega
  | succ f ih =>
      have hs : stopSig i = false := hns i
      cases hg : sched i with
      | readErr m0 =>
          obtain ⟨ih1, ih2, ih3⟩ := ih (i + 1) s
          have hrl : ConsumerService.runLoop (f + 1) i stopSig sched s =
              { ConsumerService.runLoop f (i + 1) stopSig sched s with
                caughtErrors := m0 :: (ConsumerService.runLoop f (i + 1)
                  stopSig sched s).caughtErrors } := by
            simp [ConsumerService.runLoop, hs, hg]
          rw [hrl]
          refine ⟨ih1, ?_, ?_⟩
          · show (ConsumerService.runLoop f (i + 1)
              stopSig sched s).iterations = i + (f + 1)
            omega
          intro j m h1 h2 h3
          rcases Nat.eq_or_lt_of_le h2 with rfl | hlt
          · rw [hg] at h3
            cases h3
            exact List.mem_cons_self _ _
          · exact List.mem_cons_of_mem _ (ih3 j m (by omega) hlt h3)
      | batch msgs =>
          obtain ⟨ih1, ih2, ih3⟩ :=
            ih (i + 1) (ConsumerService.processBatch s msgs).1
          have hrl : ConsumerService.runLoop (f + 1) i stopSig sched s =
              { ConsumerService.runLoop f (i + 1) stopSig sched
                  (ConsumerService.processBatch s msgs).1 with
                dispatched := (ConsumerService.processBatch s msgs).2 ++
                  (ConsumerService.runLoop f (i + 1) stopSig sched
                    (ConsumerService.processBatch s msgs).1).dispatched } := by
            simp [ConsumerService.runLoop, hs, hg]
          rw [hrl]
          refine ⟨ih1, ?_, ?_⟩
          · show (ConsumerService.runLoop f (i + 1) stopSig sched
              (ConsumerService.processBatch s msgs).1).iterations = i + (f + 1)
            omega
          intro j m h1 h2 h3
          rcases Nat.eq_or_lt_of_le h2 with rfl | hlt
          · rw [hg] at h3
            cases h3
          · exact ih3 j m (by omega) hlt h3

/-- C7: for both consumer variants, a run of the polling loop ends with
`stoppedBySignal = true` only when `stop()` had set `isRunning` to false at
that iteration's while-check; and when stop is never requested, the loop is
still running after any number of iterations — every store-read error is
caught (it lands in `caughtErrors`, the catch branch that logs, sleeps the
fixed backoff and retries), and no error is ever thrown to the caller (the
loop functions are total, and an uncaught error would end the run early,
contradicting `iterations = fuel`). -/
theorem consuming_loops_exit_only_on_stop (fuel : Nat)
    (stopSig : Nat → Bool) (schedG : Nat → GIter) (schedS : Nat → SIter)
    (s : SimpleState) (hns : ∀ j, stopSig j = false) :
    ((ConsumerGroupService.runLoop fuel 0 stopSig schedG).stoppedBySignal =
          true →
        stopSig
          (ConsumerGroupService.runLoop fuel 0 stopSig schedG).iterations =
          true) ∧
      (ConsumerGroupService.runLoop fuel 0 stopSig schedG).stoppedBySignal =
        false ∧
      (ConsumerGroupService.runLoop fuel 0 stopSig schedG).iterations =
        fuel ∧
      (∀ j m, j < fuel → schedG j = GIter.readErr m →
        m ∈ (ConsumerGroupService.runLoop fuel 0 stopSig
          schedG).caughtErrors) ∧
      ((ConsumerService.runLoop fuel 0 stopSig schedS s).stoppedBySignal =
          true →
        stopSig
          (ConsumerService.runLoop fuel 0 stopSig schedS s).iterations =
          true) ∧
      (ConsumerService.runLoop fuel 0 stopSig schedS s).stoppedBySignal =
        false ∧
      (ConsumerService.runLoop fuel 0 stopSig schedS s).iterations = fuel ∧
      ∀ j m, j < fuel → schedS j = SIter.readErr m →
        m ∈ (ConsumerService.runLoop fuel 0 stopSig schedS s).caughtErrors := by
  obtain ⟨hg1, hg2, hg3⟩ := grouped_runLoop_no_stop fuel stopSig schedG hns 0
  obtain ⟨hs1, hs2, hs3⟩ := simple_runLoop_no_stop fuel stopSig schedS hns 0 s
  refine ⟨grouped_runLoop_stopped fuel stopSig schedG 0, hg1,
    by simpa using hg2, ?_, simple_runLoop_stopped fuel stopSig schedS 0 s,
    hs1, by simpa using hs2, ?_⟩
  · intro j m h1 h2
    exact hg3 j m (by omega) (Nat.zero_le j) h2
  · intro j m h1 h2
    exact hs3 j m (by omega) (Nat.zero_le j) h2

/-- Closed instance of `consuming_loops_exit_only_on_stop`: with no stop
request, two iterations whose store reads both throw leave both loops still
running, with the grouped loop's connection error caught and recorded. -/
theorem consuming_loops_exit_only_on_stop_witness :
    (ConsumerGroupService.runLoop 2 0 (fun _ => false)
        (fun _ => GIter.readErr "conn reset")).stoppedBySignal = false ∧
      "conn reset" ∈ (ConsumerGroupService.runLoop 2 0 (fun _ => false)
        (fun _ => GIter.readErr "conn reset")).caughtErrors ∧
      (ConsumerService.runLoop 2 0 (fun _ => false)
        (fun _ => SIter.readErr "conn lost") ⟨[], 0⟩).stoppedBySignal =
        false := by
  have h := consuming_loops_exit_only_on_stop 2 (fun _ => false)
    (fun _ => GIter.readErr "conn reset")
    (fun _ => SIter.readErr "conn lost") ⟨[], 0⟩ (fun _ => rfl)
  exact ⟨h.2.1, h.2.2.2.1 0 "conn reset" (by decide) rfl, h.2.2.2.2.2.1⟩

lemma processBatch_processed_append (msgs : List SimpleMsg)
    (s : SimpleState) :
    (ConsumerService.processBatch s msgs).1.processedMessages =
        s.processedMessages ++ (ConsumerService.processBatch s msgs).2 ∧
      (s.processedMessages.Nodup →
        (s.processedMessages ++
          (ConsumerService.processBatch s msgs).2).Nodup) := by
  induction msgs generalizing s with
  | nil => simp [ConsumerService.processBatch]
  | cons m rest ih =>
      by_cases hm : m.msgId ∈ s.processedMessages
      · have hred : ConsumerService.processBatch s (m :: rest) =
            ConsumerService.processBatch s rest := by
          simp [ConsumerService.processBatch, ConsumerService.stepMsg, hm]
        rw [hred]
        exact ih s
      · have hred : ConsumerService.processBatch s (m :: rest) =
            ((ConsumerService.processBatch
                ⟨s.processedMessages ++ [m.msgId], m.msgId⟩ rest).1,
              m.msgId :: (ConsumerService.processBatch
                ⟨s.processedMessages ++ [m.msgId], m.msgId⟩ rest).2) := by
          simp [ConsumerService.processBatch, ConsumerService.stepMsg, hm]
        obtain ⟨ih1, ih2⟩ := ih ⟨s.processedMessages ++ [m.msgId], m.msgId⟩
        rw [hred]
        constructor
        · simpa [List.append_assoc] using ih1
        · intro hnd
          have hnd1 : (s.processedMessages ++ [m.msgId]).Nodup := by
            simp [List.nodup_append, hnd, hm]
          simpa [List.append_assoc] using ih2 hnd1

lemma simple_runLoop_processed_append (fuel : Nat) (stopSig : Nat → Bool)
    (sched : Nat → SIter) (i : Nat) (s : SimpleState) :
    (ConsumerService.runLoop fuel i stopSig
        sched s).finalState.processedMessages =
      s.processedMessages ++
        (ConsumerService.runLoop fuel i stopSig sched s).dispatched ∧
      (s.processedMessages.Nodup →
        (s.processedMessages ++
          (ConsumerService.runLoop fuel i stopSig sched s).dispatched).Nodup) := by
  induction fuel generalizing i s with
  | zero => simp [ConsumerService.runLoop]
  | succ f ih =>
      by_cases hs : stopSig i = true
      · simp [ConsumerService.runLoop, hs]
      · have hsf : stopSig i = false := by
          cases h : stopSig i
          · rfl
          · exact absurd h hs
        cases hg : sched i with
        | readErr m =>
            have hrl : ConsumerService.runLoop (f + 1) i stopSig sched s =
                { ConsumerService.runLoop f (i + 1) stopSig sched s with
                  caughtErrors := m :: (ConsumerService.runLoop f (i + 1)
                    stopSig sched s).caughtErrors } := by
              simp [ConsumerService.runLoop, hsf, hg]
            rw [hrl]
            exact ih (i + 1) s
        | batch msgs =>
            have hrl : ConsumerService.runLoop (f + 1) i stopSig sched s =
                { ConsumerService.runLoop f (i + 1) stopSig sched
                    (ConsumerService.processBatch s msgs).1 with
                  dispatched := (ConsumerService.processBatch s msgs).2 ++
                    (ConsumerService.runLoop f (i + 1) stopSig sched
                      (ConsumerService.processBatch s msgs).1).dispatched } := by
              simp [ConsumerService.runLoop, hsf, hg]
            rw [hrl]
            obtain ⟨hb1, hb2⟩ := processBatch_processed_append msgs s
            obtain ⟨hl1, hl2⟩ :=
              ih (i + 1) (ConsumerService.processBatch s msgs).1
            constructor
            · show (ConsumerService.runLoop f (i + 1) stopSig sched
                  (ConsumerService.processBatch s
                    msgs).1).finalState.processedMessages =
                s.processedMessages ++
                  ((ConsumerService.processBatch s msgs).2 ++
                    (ConsumerService.runLoop f (i + 1) stopSig sched
                      (ConsumerService.processBatch s msgs).1).dispatched)
              rw [hl1, hb1, List.append_assoc]
            · intro hnd
              show (s.processedMessages ++
                ((ConsumerService.processBatch s msgs).2 ++
                  (ConsumerService.runLoop f (i + 1) stopSig sched
                    (ConsumerService.processBatch s msgs).1).dispatched)).Nodup
              have h1 := hb2 hnd
              rw [← hb1] at h1
              have h2 := hl2 h1
              rw [hb1, List.append_assoc] at h2
              exact h2

/-- C10: within a single run of the simple consumer (any fuel bound, any
stop signal, any schedule of read errors and batches, any starting cursor),
each message id is dispatched to `processMessage` at most once — the
dispatch log has no duplicates — and the `processedMessages` set ends up
holding exactly the dispatched ids: the membership check before processing,
the insertion after, and the fact that the set only grows make a re-read id
(after a cursor overlap) be skipped, not reprocessed. -/
theorem simple_consumer_dispatches_at_most_once (fuel : Nat)
    (stopSig : Nat → Bool) (sched : Nat → SIter) (startId : EntryId) :
    (ConsumerService.runLoop fuel 0 stopSig sched
        ⟨[], startId⟩).dispatched.Nodup ∧
      (ConsumerService.runLoop fuel 0 stopSig sched
          ⟨[], startId⟩).finalState.processedMessages =
        (ConsumerService.runLoop fuel 0 stopSig sched
          ⟨[], startId⟩).dispatched := by
  obtain ⟨h1, h2⟩ :=
    simple_runLoop_processed_append fuel stopSig sched 0 ⟨[], startId⟩
  exact ⟨by simpa using h2 List.nodup_nil, by simpa using h1⟩
